import Mathlib

/-!
Formal model of the rpm-builder command-line front end (src/main.rs).

The program assembles an RPM build specification from command-line strings
and hands it to the external `rpm` crate.  This file gives a shallow
embedding of the specification-assembly layer: the entry grammar parser
(`parse_file_options`), the dependency expression parser
(`parse_dependency`), the changelog entry parsing loop, the recursive
directory walker (`add_dir`), the output path resolution and the
orchestration in `main`.  Strings are modelled as Lean `String`s, with
splitting done character-wise on the underlying `List Char`.  Filesystem
and external-library effects (file reads, the builder, signing, the final
create/write) are modelled by explicit oracles in a `Sys` record, and the
set of files created by a run is returned explicitly.
-/

deriving instance DecidableEq for Except

namespace RpmBuilder

/-- Splits a character list on a delimiter character, mirroring Rust's
`str::split(c)`: the result always has one more element than the number of
delimiter occurrences, and empty segments are kept. -/
def splitOnChar (c : Char) : List Char → List (List Char)
  | [] => [[]]
  | x :: xs =>
    if x = c then [] :: splitOnChar c xs
    else
      match splitOnChar c xs with
      | r :: rs => (x :: r) :: rs
      | [] => [[x]]

/-- Splits a string on a delimiter character into strings, mirroring
Rust's `str::split(c).collect::<Vec<&str>>()`. -/
def splitOnStr (c : Char) (s : String) : List String :=
  (splitOnChar c s.data).map List.asString

/-- Simplified path value modelling `std::path::PathBuf` for the paths the
program manipulates: an absolute/relative flag and a list of normal
components (no `.` or `..` handling is needed by the modelled code paths).
The root path `/` has an empty component list. -/
structure RPath where
  absolute : Bool
  components : List String
deriving DecidableEq

/-- Appends one component, modelling `PathBuf::push` / `Path::join` with a
single relative component. -/
def RPath.push (p : RPath) (name : String) : RPath :=
  ⟨p.absolute, p.components ++ [name]⟩

/-- Models `Path::file_name`: the last component, or `none` for a path
with no components (such as `/`). -/
def RPath.fileName (p : RPath) : Option String :=
  p.components.getLast?

/-- Renders the path back to a string, modelling
`Path::to_string_lossy` on paths made of normal components. -/
def rpathToString (p : RPath) : String :=
  (if p.absolute then "/" else "") ++ String.intercalate "/" p.components

/-- Parses a string into an `RPath`, modelling `PathBuf::from`: a leading
slash marks an absolute path and the rest is split on `/` (empty segments
produced by repeated slashes are dropped, as they are not distinct
components). -/
def strToRPath (s : String) : RPath :=
  match s.data with
  | '/' :: rest => ⟨true, ((splitOnChar '/' rest).filter (· ≠ [])).map List.asString⟩
  | cs => ⟨false, ((splitOnChar '/' cs).filter (· ≠ [])).map List.asString⟩

/-- Models `Path::file_stem` on one file-name component: the portion
before the final `.`, except that a leading `.` with no other `.` does not
count as an extension separator. -/
def fileStemChars (cs : List Char) : List Char :=
  match cs.reverse.dropWhile (· ≠ '.') with
  | [] => cs
  | [_] => cs
  | _ :: rest => rest.reverse

/-- Models `Path::with_extension`: replaces the extension of the last
component by the given one; a path without a file name is returned
unchanged (as `set_extension` does nothing there). -/
def RPath.withExtension (p : RPath) (ext : String) : RPath :=
  match p.components.getLast? with
  | none => p
  | some last =>
    ⟨p.absolute, p.components.dropLast ++ [(fileStemChars last.data).asString ++ "." ++ ext]⟩

/-- Error taxonomy of the run, one constructor per `anyhow` failure site in
src/main.rs.  Each parser error carries the offending input, as the
corresponding `bail!`/`with_context` message does. -/
inductive BuildError where
  | malformedEntry (input : String)
  | addFileFailed (source : String)
  | malformedDirEntry (input : String)
  | dirReadFailed (dir : String)
  | pathHasNoFilename
  | malformedChangelogEntry (input : String)
  | invalidDate (input : String)
  | scriptletReadFailed (path : RPath)
  | invalidDependencyExpression (input : String)
  | unknownOperator (op : String)
  | keyLoadFailed (path : RPath)
  | signerFailed (path : RPath)
  | buildFailed
  | createFailed (path : RPath)
  | writeFailed
deriving DecidableEq

/-! ### Entry grammar parser (`parse_file_options`, src/main.rs:472-486) -/

/-- Parses one `source:dest` argument: split on `:` and require exactly
two segments, mirroring the closure body in `parse_file_options`
(src/main.rs:475-483).  Segments may be empty; the code only checks
`parts.len() != 2`. -/
def parseFileEntry (input : String) : Except BuildError (String × String) :=
  match (splitOnChar ':' input.data).map List.asString with
  | [src, dst] => .ok (src, dst)
  | _ => .error (.malformedEntry input)

/-- Models `parse_file_options` (src/main.rs:472-486): parse every raw
argument, failing on the first malformed one. -/
def parse_file_options (rawFiles : List String) : Except BuildError (List (String × String)) :=
  rawFiles.mapM parseFileEntry

/-! ### Dependency expression parser (`parse_dependency`, src/main.rs:488-515)

The Rust code matches the anchored regex
`^([a-zA-Z0-9\-\._]+)(\s*(>=|>|=|<=|<)(.+))?$` with the `regex` crate's
leftmost-first (Perl-like) semantics and then dispatches on the captured
operator.  The model below reproduces those semantics directly:

* group 1 `[a-zA-Z0-9\-\._]+` is greedy; since the name character class is
  disjoint from whitespace and from the operator characters `<`, `>`, `=`,
  no backtracking into group 1 can turn a failed match into a successful
  one, so it always captures the maximal prefix of name characters;
* `\s*` is greedy and whitespace is disjoint from the operator characters,
  so it always consumes the maximal whitespace run after the name;
* the alternation `(>=|>|=|<=|<)` is tried left to right; after `>=` or
  `<=` fails to let the rest of the pattern match, the engine backtracks
  to the one-character operator, leaving the `=` to the version capture;
* `(.+)` must reach the anchor `$`, so it succeeds exactly when the rest
  of the input is non-empty and contains no newline (`.` does not match
  a newline by default).

`\s` is modelled on the whitespace characters `Char.isWhitespace` knows;
the modelled claims only involve ASCII inputs. -/

/-- Character class of the name capture group `[a-zA-Z0-9\-\._]+`. -/
def depNameChar (c : Char) : Bool :=
  c.isAlphanum || c = '-' || c = '.' || c = '_'

/-- Whitespace as matched by `\s`. -/
def isSpaceChar (c : Char) : Bool :=
  c.isWhitespace

/-- Whether a list can be the `(.+)` capture reaching the `$` anchor:
non-empty and newline-free. -/
def versionOk (v : List Char) : Bool :=
  !v.isEmpty && v.all (· != '\n')

/-- Matches `(>=|>|=|<=|<)(.+)$` at the head of `r`, returning the operator
and version captures.  The alternation is ordered; when a two-character
operator matches but `(.+)$` fails afterwards, the engine backtracks to
the corresponding one-character operator with `=` prepended to the
version, exactly as a leftmost-first regex engine does. -/
def matchOpVersion : List Char → Option (List Char × List Char)
  | '>' :: '=' :: rest =>
    if versionOk rest then some (['>', '='], rest)
    else if versionOk ('=' :: rest) then some (['>'], '=' :: rest)
    else none
  | '>' :: rest => if versionOk rest then some (['>'], rest) else none
  | '=' :: rest => if versionOk rest then some (['='], rest) else none
  | '<' :: '=' :: rest =>
    if versionOk rest then some (['<', '='], rest)
    else if versionOk ('=' :: rest) then some (['<'], '=' :: rest)
    else none
  | '<' :: rest => if versionOk rest then some (['<'], rest) else none
  | _ => none

/-- Capture groups of a successful regex match on the whole input:
the name (group 1) and, when the optional group 2 is present, its full
text together with the operator (group 3) and version (group 4) captures.
Returns `none` when the regex does not match. -/
def depCaptures (s : List Char) : Option (List Char × Option (List Char × List Char × List Char)) :=
  if (s.takeWhile depNameChar).isEmpty then none
  else if (s.dropWhile depNameChar).isEmpty then some (s.takeWhile depNameChar, none)
  else
    match matchOpVersion ((s.dropWhile depNameChar).dropWhile isSpaceChar) with
    | some (op, ver) =>
      some (s.takeWhile depNameChar,
        some ((s.dropWhile depNameChar).takeWhile isSpaceChar ++ op ++ ver, op, ver))
    | none => none

/-- Structured dependency record, modelling the `rpm::Dependency`
constructors used by `parse_dependency`. -/
inductive Dependency where
  | any (name : String)
  | eq (name version : String)
  | less (name version : String)
  | lessEq (name version : String)
  | greaterEq (name version : String)
  | greater (name version : String)
deriving DecidableEq

/-- Dispatch on the operator capture `parts[3]`, mirroring the
`match parts[3].as_str()` at src/main.rs:503-512 including its fallback
branch for an operator string the regex should never produce. -/
def dispatchOp (name op ver : List Char) : Except BuildError Dependency :=
  if op = "=".data then .ok (.eq name.asString ver.asString)
  else if op = "<".data then .ok (.less name.asString ver.asString)
  else if op = "<=".data then .ok (.lessEq name.asString ver.asString)
  else if op = ">=".data then .ok (.greaterEq name.asString ver.asString)
  else if op = ">".data then .ok (.greater name.asString ver.asString)
  else .error (.unknownOperator op.asString)

/-- Models `parse_dependency` (src/main.rs:488-515).  On a match, the
filtered capture vector has length 2 (no operator group: the
"any version" case, using `parts[1]`) or length 5, in which case the code
dispatches on the operator capture. -/
def parse_dependency (line : String) : Except BuildError Dependency :=
  match depCaptures line.data with
  | none => .error (.invalidDependencyExpression line)
  | some (name, none) => .ok (.any name.asString)
  | some (name, some (_g2, op, ver)) => dispatchOp name op ver

/-! ### Changelog entry parsing (loop body in `main`, src/main.rs:340-356) -/

/-- Proleptic Gregorian leap year rule. -/
def isLeapYear (y : Nat) : Bool :=
  (y % 4 = 0 && y % 100 ≠ 0) || y % 400 = 0

/-- Number of days in a month of the proleptic Gregorian calendar. -/
def daysInMonth (y m : Nat) : Nat :=
  if m = 2 then (if isLeapYear y then 29 else 28)
  else if m = 4 || m = 6 || m = 9 || m = 11 then 30
  else 31

/-- Whether `y-m-d` is a real calendar date. -/
def validCivilDate (y m d : Nat) : Bool :=
  1 ≤ m && m ≤ 12 && 1 ≤ d && d ≤ daysInMonth y m

/-- Days from 1970-01-01 to the given proleptic Gregorian date (negative
for earlier dates), via the standard civil-calendar conversion. -/
def daysFromCivil (y m d : Int) : Int :=
  let yAdj := y - (if m ≤ 2 then 1 else 0)
  let era := yAdj.fdiv 400
  let yoe := yAdj - era * 400
  let mp := (m + 9) % 12
  let doy := (153 * mp + 2).fdiv 5 + d - 1
  let doe := yoe * 365 + yoe.fdiv 4 - yoe.fdiv 100 + doy
  era * 146097 + doe - 719468

/-- Numeric value of a decimal digit character. -/
def digitVal (c : Char) : Nat :=
  c.toNat - 48

/-- Modelled from the documented semantics of the external `chrono` crate:
`NaiveDate::parse_from_str(s, "%Y-%m-%d")` followed by
`.and_hms_opt(0, 0, 0).unwrap().and_utc().timestamp()` (src/main.rs:351-354).
The format is the zero-padded calendar form `YYYY-MM-DD`; a successful
parse of a real calendar date yields the epoch seconds of midnight UTC of
that date, and anything else is a parse error (`none`). -/
def parseDateSeconds (s : String) : Option Int :=
  match s.data with
  | [y1, y2, y3, y4, '-', m1, m2, '-', d1, d2] =>
    if y1.isDigit && y2.isDigit && y3.isDigit && y4.isDigit &&
       m1.isDigit && m2.isDigit && d1.isDigit && d2.isDigit then
      let y := 1000 * digitVal y1 + 100 * digitVal y2 + 10 * digitVal y3 + digitVal y4
      let m := 10 * digitVal m1 + digitVal m2
      let d := 10 * digitVal d1 + digitVal d2
      if validCivilDate y m d then
        some (86400 * daysFromCivil (Int.ofNat y) (Int.ofNat m) (Int.ofNat d))
      else none
    else none
  | _ => none

/-- Models Rust's `i64 as u32` cast applied to the timestamp
(src/main.rs:355): truncation to the low 32 bits, i.e. the value modulo
2^32 as an unsigned integer. -/
def castU32 (i : Int) : Nat :=
  (i % 4294967296).toNat

/-- Models one iteration of the changelog loop in `main`
(src/main.rs:340-356) up to the timestamp conversion: split the raw entry
on `:` into exactly three parts, then parse the date part; returns the
author, the content and the (signed) epoch seconds of midnight UTC. -/
def parseChangelogEntry (raw : String) : Except BuildError (String × String × Int) :=
  match (splitOnChar ':' raw.data).map List.asString with
  | [author, content, rawTime] =>
    match parseDateSeconds rawTime with
    | some secs => .ok (author, content, secs)
    | none => .error (.invalidDate rawTime)
  | _ => .error (.malformedChangelogEntry raw)

/-! ### File entries and argument classes (loops in `main`, src/main.rs:262-298) -/

/-- File entry handed to the builder: source path, destination path and
the attributes set by `rpm::FileOptions` builder calls (`mode`,
`is_config`, `is_doc`). -/
structure FileSpec where
  source : String
  dest : String
  mode : Option Nat
  isConfig : Bool
  isDoc : Bool
deriving DecidableEq

/-- The four file-argument classes of the CLI. -/
inductive FileClass where
  | plain
  | exec
  | config
  | doc
deriving DecidableEq

/-- Post-parse attribute assignment of each class (src/main.rs:262-298):
plain files use the options unchanged, `--exec-file` adds
`.mode(0o100755)`, `--config-file` adds `.is_config()`, `--doc-file` adds
`.is_doc()`. -/
def mkFileSpec (cls : FileClass) (sd : String × String) : FileSpec :=
  match cls with
  | .plain => ⟨sd.1, sd.2, none, false, false⟩
  | .exec => ⟨sd.1, sd.2, some 0o100755, false, false⟩
  | .config => ⟨sd.1, sd.2, none, true, false⟩
  | .doc => ⟨sd.1, sd.2, none, false, true⟩

/-- Models one `for (src, options) in parse_file_options(..)` loop body
sequence: each parsed entry is handed to `builder.with_file`, which reads
the source file and can fail; `ok src` is the oracle for that read. -/
def addParsedFiles (ok : String → Bool) (cls : FileClass) :
    List (String × String) → List FileSpec → Except BuildError (List FileSpec)
  | [], acc => .ok acc
  | sd :: rest, acc =>
    if ok sd.1 then addParsedFiles ok cls rest (acc ++ [mkFileSpec cls sd])
    else .error (.addFileFailed sd.1)

/-- Models one of the four file-argument loops in `main`
(src/main.rs:262-298): parse all raw arguments with the shared entry
grammar, then add each entry with the class's attribute assignment. -/
def addFileArgs (ok : String → Bool) (cls : FileClass) (raw : List String)
    (acc : List FileSpec) : Except BuildError (List FileSpec) :=
  match parse_file_options raw with
  | .error e => .error e
  | .ok pairs => addParsedFiles ok cls pairs acc

/-! ### Directory tree walker (`add_dir`, src/main.rs:443-470) -/

/-- Listing of one directory as `fs::read_dir` yields it, in order.  Each
entry records what `DirEntry::metadata()` (which does not follow
symlinks) reports: a regular file, a symlink together with the target
path `fs::read_link` returns, or a subdirectory with its own listing. -/
inductive FsTree where
  | nil : FsTree
  | regular (name : String) (rest : FsTree) : FsTree
  | symlink (name : String) (target : RPath) (rest : FsTree) : FsTree
  | subdir (name : String) (children : FsTree) (rest : FsTree) : FsTree
deriving DecidableEq

/-- Models `add_dir` (src/main.rs:443-470).  For every entry the effective
source is the entry path, except for a symlink, whose link target becomes
the effective source (one level of dereference, the target itself is not
inspected).  The file name of the effective source is extracted (failing
with `pathHasNoFilename` when there is none) and pushed onto the
destination root; directories recurse, everything else is added with
`builder.with_file(&source, FileOptions::new(new_target))`, whose
source-read success is the `ok` oracle. -/
def add_dir (ok : String → Bool) :
    FsTree → RPath → RPath → List FileSpec → Except BuildError (List FileSpec)
  | .nil, _, _, acc => .ok acc
  | .regular nm rest, srcRoot, tgtRoot, acc =>
    match (srcRoot.push nm).fileName with
    | none => .error .pathHasNoFilename
    | some f =>
      if ok (rpathToString (srcRoot.push nm)) then
        add_dir ok rest srcRoot tgtRoot
          (acc ++ [⟨rpathToString (srcRoot.push nm), rpathToString (tgtRoot.push f),
                    none, false, false⟩])
      else .error (.addFileFailed (rpathToString (srcRoot.push nm)))
  | .symlink _nm target rest, srcRoot, tgtRoot, acc =>
    match target.fileName with
    | none => .error .pathHasNoFilename
    | some f =>
      if ok (rpathToString target) then
        add_dir ok rest srcRoot tgtRoot
          (acc ++ [⟨rpathToString target, rpathToString (tgtRoot.push f), none, false, false⟩])
      else .error (.addFileFailed (rpathToString target))
  | .subdir nm children rest, srcRoot, tgtRoot, acc =>
    match (srcRoot.push nm).fileName with
    | none => .error .pathHasNoFilename
    | some f =>
      match add_dir ok children (srcRoot.push nm) (tgtRoot.push f) acc with
      | .error e => .error e
      | .ok acc2 => add_dir ok rest srcRoot tgtRoot acc2

/-! ### Output path resolution (src/main.rs:419-432) -/

/-- Models the output path computation in `main`: the default file name is
`<nvra>.rpm`; with no `--out` the file goes to the current working
directory (a relative path), with an `--out` that is an existing directory
(the `isDir` oracle models `fs::metadata(..).is_ok_and(|m| m.is_dir())`)
the file is placed inside it, and any other `--out` path gets its
extension forced to `.rpm`. -/
def resolveOutputPath (isDir : RPath → Bool) (out : Option RPath) (nvraStr : String) : RPath :=
  let filename := nvraStr ++ ".rpm"
  match out with
  | some path => if isDir path then path.push filename else path.withExtension "rpm"
  | none => ⟨false, [filename]⟩

/-! ### The CLI surface and the orchestration in `main` (src/main.rs:240-441) -/

/-- Compression choice of the `--compression` flag. -/
inductive Compression where
  | gzip
  | zstd
  | none
deriving DecidableEq

/-- Compression handed to the builder: an explicit algorithm or the
library default (`rpm::CompressionType::default()`), kept abstract. -/
inductive CompressionChoice where
  | gzip
  | zstd
  | uncompressed
  | libraryDefault
deriving DecidableEq

/-- Models the `match args.compression` at src/main.rs:243-248. -/
def compressionOf : Option Compression → CompressionChoice
  | some .gzip => .gzip
  | some .zstd => .zstd
  | some .none => .uncompressed
  | Option.none => .libraryDefault

/-- Parsed command line, one field per `Cli` field in src/main.rs:38-231
(after clap has done the flat string parsing). -/
structure Cli where
  out : Option RPath
  name : String
  epoch : Nat
  version : String
  release : String
  arch : String
  license : String
  summary : String
  file : List String
  exec_file : List String
  doc_file : List String
  config_file : List String
  dir : List String
  compression : Option Compression
  changelog : List String
  requires : List String
  provides : List String
  obsoletes : List String
  conflicts : List String
  suggests : List String
  enhances : List String
  recommends : List String
  supplements : List String
  pre_install_script : Option RPath
  post_install_script : Option RPath
  pre_uninstall_script : Option RPath
  post_uninstall_script : Option RPath
  sign_with_pgp_asc : Option RPath

/-- The build specification accumulated by the `rpm::PackageBuilder`
calls, in the order `main` issues them. -/
structure BuildSpec where
  name : String
  epoch : Nat
  version : String
  release : String
  arch : String
  license : String
  summary : String
  compression : CompressionChoice
  files : List FileSpec
  changelog : List (String × String × Nat)
  requires : List Dependency
  obsoletes : List Dependency
  conflicts : List Dependency
  provides : List Dependency
  suggests : List Dependency
  enhances : List Dependency
  recommends : List Dependency
  supplements : List Dependency
  preInstall : Option String
  postInstall : Option String
  preUninstall : Option String
  postUninstall : Option String
deriving DecidableEq

/-- Oracles for everything outside the specification-assembly layer:
filesystem metadata and reads, the directory listings, and the external
builder collaborator (`with_file` source reads, signer construction, the
build itself, the canonical NVRA identifier, and the final create/write). -/
structure Sys where
  isDir : RPath → Bool
  readFile : RPath → Option String
  withFileOk : String → Bool
  dirTree : String → Option FsTree
  signerOk : String → Bool
  buildOk : BuildSpec → Bool
  nvraOf : BuildSpec → String
  createOk : RPath → Bool
  writeOk : RPath → Bool

/-- Models the `--dir` loop in `main` (src/main.rs:280-292): split each
argument on `:` into exactly two parts, read the source directory (the
`dirTree` oracle, `none` modelling an `fs::read_dir` failure) and walk it
with `add_dir`. -/
def addDirArgs (ok : String → Bool) (dirTree : String → Option FsTree) :
    List String → List FileSpec → Except BuildError (List FileSpec)
  | [], acc => .ok acc
  | d :: rest, acc =>
    match (splitOnChar ':' d.data).map List.asString with
    | [dirStr, targetStr] =>
      match dirTree dirStr with
      | Option.none => .error (.dirReadFailed dirStr)
      | some tree =>
        match add_dir ok tree (strToRPath dirStr) (strToRPath targetStr) acc with
        | .error e => .error e
        | .ok acc2 => addDirArgs ok dirTree rest acc2
    | _ => .error (.malformedDirEntry d)

/-- Models the changelog loop in `main` (src/main.rs:340-356): parse each
raw entry and hand the author, content and the epoch seconds cast to
`u32` to `add_changelog_entry`. -/
def addChangelogArgs :
    List String → List (String × String × Nat) → Except BuildError (List (String × String × Nat))
  | [], acc => .ok acc
  | raw :: rest, acc =>
    match parseChangelogEntry raw with
    | .error e => .error e
    | .ok (author, content, secs) => addChangelogArgs rest (acc ++ [(author, content, castU32 secs)])

/-- Models one of the eight dependency loops in `main`
(src/main.rs:358-396): parse each string and collect the relations in
order. -/
def parseDependencyList : List String → List Dependency → Except BuildError (List Dependency)
  | [], acc => .ok acc
  | item :: rest, acc =>
    match parse_dependency item with
    | .error e => .error e
    | .ok dep => parseDependencyList rest (acc ++ [dep])

/-- Models one scriptlet block in `main` (src/main.rs:300-338):
when a path is given, read the file (failing if the oracle has no
content for it) and record the body. -/
def loadScriptlet (readFile : RPath → Option String) :
    Option RPath → Except BuildError (Option String)
  | Option.none => .ok Option.none
  | some p =>
    match readFile p with
    | some content => .ok (some content)
    | Option.none => .error (.scriptletReadFailed p)

/-- Models the builder-call sequence of `main` up to (but excluding) the
build itself (src/main.rs:240-396): base metadata, then the plain,
executable and config file loops, the directory loop, the doc file loop,
the four scriptlets, the changelog entries and the eight dependency
kinds, in the source's order, aborting on the first failure. -/
def assembleSpec (args : Cli) (sys : Sys) : Except BuildError BuildSpec := do
  let files1 ← addFileArgs sys.withFileOk .plain args.file []
  let files2 ← addFileArgs sys.withFileOk .exec args.exec_file files1
  let files3 ← addFileArgs sys.withFileOk .config args.config_file files2
  let files4 ← addDirArgs sys.withFileOk sys.dirTree args.dir files3
  let files5 ← addFileArgs sys.withFileOk .doc args.doc_file files4
  let preIn ← loadScriptlet sys.readFile args.pre_install_script
  let postIn ← loadScriptlet sys.readFile args.post_install_script
  let preUn ← loadScriptlet sys.readFile args.pre_uninstall_script
  let postUn ← loadScriptlet sys.readFile args.post_uninstall_script
  let changelogL ← addChangelogArgs args.changelog []
  let requiresL ← parseDependencyList args.requires []
  let obsoletesL ← parseDependencyList args.obsoletes []
  let conflictsL ← parseDependencyList args.conflicts []
  let providesL ← parseDependencyList args.provides []
  let suggestsL ← parseDependencyList args.suggests []
  let enhancesL ← parseDependencyList args.enhances []
  let recommendsL ← parseDependencyList args.recommends []
  let supplementsL ← parseDependencyList args.supplements []
  .ok
    { name := args.name
      epoch := args.epoch
      version := args.version
      release := args.release
      arch := args.arch
      license := args.license
      summary := args.summary
      compression := compressionOf args.compression
      files := files5
      changelog := changelogL
      requires := requiresL
      obsoletes := obsoletesL
      conflicts := conflictsL
      provides := providesL
      suggests := suggestsL
      enhances := enhancesL
      recommends := recommendsL
      supplements := supplementsL
      preInstall := preIn
      postInstall := postIn
      preUninstall := preUn
      postUninstall := postUn }

/-- Models `main` from the spec assembly through the build call and the
output path resolution (src/main.rs:240-432): after the spec is
assembled, an optional signing key is loaded and a signer constructed
from it, the build (signed or unsigned) runs, and only then is the output
path resolved from the finished package's NVRA identifier. -/
def buildPhase (args : Cli) (sys : Sys) : Except BuildError RPath := do
  let spec ← assembleSpec args sys
  match args.sign_with_pgp_asc with
  | some keyPath =>
    match sys.readFile keyPath with
    | Option.none => .error (.keyLoadFailed keyPath)
    | some rawKey =>
      if sys.signerOk rawKey then
        if sys.buildOk spec then
          .ok (resolveOutputPath sys.isDir args.out (sys.nvraOf spec))
        else .error .buildFailed
      else .error (.signerFailed keyPath)
  | Option.none =>
    if sys.buildOk spec then
      .ok (resolveOutputPath sys.isDir args.out (sys.nvraOf spec))
    else .error .buildFailed

/-- Models the whole of `main` (src/main.rs:240-441), returning the run's
result together with the list of files the run created, in creation
order.  Nothing before `fs::File::create(&output_path)`
(src/main.rs:434) creates a file; the create step creates (or truncates)
the output file, and `pkg.write` then fills it and can itself fail,
leaving the created file behind. -/
def mainModel (args : Cli) (sys : Sys) : Except BuildError RPath × List RPath :=
  match buildPhase args sys with
  | .error e => (.error e, [])
  | .ok path =>
    if sys.createOk path then
      if sys.writeOk path then (.ok path, [path])
      else (.error .writeFailed, [path])
    else (.error (.createFailed path), [])

/-- Minimal command line: just a package name, everything else defaulted
as clap does (src/main.rs:38-231). -/
def cliMinimal : Cli :=
  { out := Option.none, name := "pkg", epoch := 0, version := "1.0.0", release := "1",
    arch := "noarch", license := "MIT", summary := "", file := [], exec_file := [],
    doc_file := [], config_file := [], dir := [], compression := Option.none, changelog := [],
    requires := [], provides := [], obsoletes := [], conflicts := [], suggests := [],
    enhances := [], recommends := [], supplements := [], pre_install_script := Option.none,
    post_install_script := Option.none, pre_uninstall_script := Option.none,
    post_uninstall_script := Option.none, sign_with_pgp_asc := Option.none }

/-- Environment in which every external step succeeds. -/
def sysAllOk : Sys :=
  { isDir := fun _ => false, readFile := fun _ => Option.none, withFileOk := fun _ => true,
    dirTree := fun _ => Option.none, signerOk := fun _ => true, buildOk := fun _ => true,
    nvraOf := fun _ => "pkg-1.0.0-1.noarch", createOk := fun _ => true, writeOk := fun _ => true }

/-- Environment in which everything succeeds except the final
`pkg.write` into the already created output file. -/
def sysWriteFails : Sys :=
  { sysAllOk with writeOk := fun _ => false }

/-- Minimal command line with one illegal dependency string. -/
def cliBadDep : Cli :=
  { cliMinimal with requires := ["bad name with spaces no op"] }

/-! ### Helper lemmas -/

theorem takeWhile_prefix_append {α} (p : α → Bool) (xs : List α) (c : α) (ys : List α)
    (hxs : ∀ x ∈ xs, p x = true) (hc : p c = false) :
    (xs ++ c :: ys).takeWhile p = xs := by
  induction xs with
  | nil => simp [List.takeWhile_cons, hc]
  | cons a as ih =>
    have ha : p a = true := hxs a (List.mem_cons_self a as)
    have has : ∀ x ∈ as, p x = true := fun x hx => hxs x (List.mem_cons_of_mem a hx)
    simp [List.takeWhile_cons, ha, ih has]

theorem dropWhile_prefix_append {α} (p : α → Bool) (xs : List α) (c : α) (ys : List α)
    (hxs : ∀ x ∈ xs, p x = true) (hc : p c = false) :
    (xs ++ c :: ys).dropWhile p = c :: ys := by
  induction xs with
  | nil => simp [List.dropWhile_cons, hc]
  | cons a as ih =>
    have ha : p a = true := hxs a (List.mem_cons_self a as)
    have has : ∀ x ∈ as, p x = true := fun x hx => hxs x (List.mem_cons_of_mem a hx)
    simp [List.dropWhile_cons, ha, ih has]

theorem fileName_push (p : RPath) (nm : String) : (p.push nm).fileName = some nm := by
  simp [RPath.push, RPath.fileName]

theorem addParsedFiles_all_readable (ok : String → Bool) (cls : FileClass)
    (pairs : List (String × String)) (acc : List FileSpec)
    (h : ∀ sd ∈ pairs, ok sd.1 = true) :
    addParsedFiles ok cls pairs acc = .ok (acc ++ pairs.map (mkFileSpec cls)) := by
  induction pairs generalizing acc with
  | nil => simp [addParsedFiles]
  | cons sd rest ih =>
    have h1 : ok sd.1 = true := h sd (List.mem_cons_self sd rest)
    have hrest : ∀ x ∈ rest, ok x.1 = true := fun x hx => h x (List.mem_cons_of_mem sd hx)
    rw [addParsedFiles, if_pos h1, ih _ hrest]
    simp

theorem matchOpVersion_shape (r op ver : List Char) (h : matchOpVersion r = some (op, ver)) :
    op = ['>', '='] ∨ op = ['>'] ∨ op = ['='] ∨ op = ['<', '='] ∨ op = ['<'] := by
  unfold matchOpVersion at h
  repeat' split at h
  all_goals first
    | exact Option.noConfusion h
    | (obtain ⟨h1, h2⟩ := Prod.mk.injEq .. ▸ Option.some.inj h; tauto)

theorem dispatchOp_ge (name ver : List Char) :
    dispatchOp name ['>', '='] ver = .ok (.greaterEq name.asString ver.asString) := by
  unfold dispatchOp
  rw [if_neg (by decide), if_neg (by decide), if_neg (by decide), if_pos (by decide)]

theorem dispatchOp_gt (name ver : List Char) :
    dispatchOp name ['>'] ver = .ok (.greater name.asString ver.asString) := by
  unfold dispatchOp
  rw [if_neg (by decide), if_neg (by decide), if_neg (by decide), if_neg (by decide),
    if_pos (by decide)]

theorem dispatchOp_le (name ver : List Char) :
    dispatchOp name ['<', '='] ver = .ok (.lessEq name.asString ver.asString) := by
  unfold dispatchOp
  rw [if_neg (by decide), if_neg (by decide), if_pos (by decide)]

theorem dispatchOp_lt (name ver : List Char) :
    dispatchOp name ['<'] ver = .ok (.less name.asString ver.asString) := by
  unfold dispatchOp
  rw [if_neg (by decide), if_pos (by decide)]

theorem dispatchOp_eqop (name ver : List Char) :
    dispatchOp name ['='] ver = .ok (.eq name.asString ver.asString) := by
  unfold dispatchOp
  rw [if_pos (by decide)]

theorem depCaptures_name_op (nm : List Char) (c0 : Char) (tail : List Char)
    (hne : nm ≠ []) (hchars : ∀ c ∈ nm, depNameChar c = true)
    (hc0 : depNameChar c0 = false) (hc0s : isSpaceChar c0 = false) :
    depCaptures (nm ++ c0 :: tail) =
      match matchOpVersion (c0 :: tail) with
      | some (op, ver) => some (nm, some (op ++ ver, op, ver))
      | none => none := by
  have hemp : nm.isEmpty = false := by
    cases nm with
    | nil => exact absurd rfl hne
    | cons a as => rfl
  unfold depCaptures
  rw [takeWhile_prefix_append _ nm c0 tail hchars hc0,
      dropWhile_prefix_append _ nm c0 tail hchars hc0]
  simp only [hemp, Bool.false_eq_true, if_false, List.isEmpty_cons, List.takeWhile_cons, hc0s,
    List.dropWhile_cons]
  cases hm : matchOpVersion (c0 :: tail) with
  | none => simp [hm]
  | some ov => obtain ⟨op, ver⟩ := ov; simp [hm]

theorem depCaptures_op_shape (s nm g2 op ver : List Char)
    (h : depCaptures s = some (nm, some (g2, op, ver))) :
    op = ['>', '='] ∨ op = ['>'] ∨ op = ['='] ∨ op = ['<', '='] ∨ op = ['<'] := by
  unfold depCaptures at h
  split at h
  · exact Option.noConfusion h
  · split at h
    · simp at h
    · split at h
      · rename_i op' ver' heq
        simp only [Option.some.injEq, Prod.mk.injEq] at h
        obtain ⟨-, -, hop, -⟩ := h
        exact hop ▸ matchOpVersion_shape _ op' ver' heq
      · exact Option.noConfusion h

/-! ### Claim C2 (entry grammar parser) -/

/-- C2 (amended): the entry grammar parser succeeds exactly when splitting
the input on `:` yields exactly two segments, returning them as
(source, destination) — the segments are not required to be non-empty —
and fails with a `MalformedEntry` error naming the offending string on
any other segment count. -/
theorem c2_entry_grammar_two_segments (s : String) :
    (∀ a b, splitOnStr ':' s = [a, b] → parseFileEntry s = .ok (a, b))
  ∧ ((splitOnStr ':' s).length ≠ 2 → parseFileEntry s = .error (.malformedEntry s)) := by
  constructor
  · intro a b h
    simp only [splitOnStr] at h
    simp only [parseFileEntry]
    rw [h]
  · intro h
    simp only [splitOnStr] at h
    simp only [parseFileEntry]
    rcases hl : (splitOnChar ':' s.data).map List.asString with _ | ⟨a, _ | ⟨b, _ | ⟨c, tl⟩⟩⟩
    · rfl
    · rfl
    · rw [hl] at h; simp at h
    · rfl

/-- C2 witness: the amended contract evaluated at one well-formed and one
malformed input. -/
theorem c2_entry_grammar_two_segments_witness :
    parseFileEntry "src:dst" = .ok ("src", "dst")
  ∧ parseFileEntry "nodelim" = .error (.malformedEntry "nodelim") :=
  ⟨(c2_entry_grammar_two_segments "src:dst").1 "src" "dst" (by decide),
   (c2_entry_grammar_two_segments "nodelim").2 (by decide)⟩

/-- C2 counterexample: the claim requires both segments to be non-empty
for success, but the code only counts segments; the input `"a:"` splits
into two segments of which the second is empty, and the parser accepts it
as (source `"a"`, destination `""`). -/
theorem c2_empty_segment_accepted :
    splitOnStr ':' "a:" = ["a", ""] ∧ parseFileEntry "a:" = .ok ("a", "") := by
  decide

/-! ### Claim C3 (dependency parser whitespace around the operator) -/

/-- C3 (code evaluated at the failing input): the grammar absorbs the
whitespace before the operator into the `\s*` of group 2, but the version
capture `(.+)` starts immediately after the operator, so
`"foo >= 1.0.0"` parses to a greater-or-equal relation whose version
string is `" 1.0.0"` with the leading space kept — not `"1.0.0"` as the
claim (and the repository's own test, which expects
`Dependency::greater_eq("wget", "1.0.0")` from `"wget >= 1.0.0"`)
states.  A bare name still yields the "any version" relation and a
non-matching string the `InvalidDependencyExpression` error naming it. -/
theorem c3_dependency_version_keeps_leading_space :
    parse_dependency "foo >= 1.0.0" = .ok (.greaterEq "foo" " 1.0.0")
  ∧ parse_dependency "foo" = .ok (.any "foo")
  ∧ parse_dependency "bad name with spaces no op"
      = .error (.invalidDependencyExpression "bad name with spaces no op") := by
  decide

/-! ### Claim C4 (output path resolution) -/

/-- C4: with no user path the output is `<identifier>.rpm` relative to
the current working directory; a user path that is an existing directory
gets `<identifier>.rpm` appended; any other user path has its extension
forced to `.rpm`, so `/tmp/custom.bin` resolves to `/tmp/custom.rpm`. -/
theorem c4_output_path_resolution (isDir : RPath → Bool) (p : RPath) (nvraStr : String) :
    resolveOutputPath isDir Option.none nvraStr = ⟨false, [nvraStr ++ ".rpm"]⟩
  ∧ (isDir p = true → resolveOutputPath isDir (some p) nvraStr = p.push (nvraStr ++ ".rpm"))
  ∧ (isDir p = false → resolveOutputPath isDir (some p) nvraStr = p.withExtension "rpm")
  ∧ RPath.withExtension ⟨true, ["tmp", "custom.bin"]⟩ "rpm" = ⟨true, ["tmp", "custom.rpm"]⟩ := by
  refine ⟨rfl, fun h => ?_, fun h => ?_, by decide⟩
  · simp [resolveOutputPath, h]
  · simp [resolveOutputPath, h]

/-- C4 witness: the resolution rules evaluated at the spec's concrete
examples. -/
theorem c4_output_path_resolution_witness :
    resolveOutputPath (fun q => decide (q = ⟨true, ["tmp", "out"]⟩))
        (some ⟨true, ["tmp", "out"]⟩) "pkg-1.0.0-1.noarch"
      = ⟨true, ["tmp", "out", "pkg-1.0.0-1.noarch.rpm"]⟩
  ∧ resolveOutputPath (fun _ => false) (some ⟨true, ["tmp", "custom.bin"]⟩) "pkg-1.0.0-1.noarch"
      = ⟨true, ["tmp", "custom.rpm"]⟩
  ∧ resolveOutputPath (fun _ => false) Option.none "pkg-1.0.0-1.noarch"
      = ⟨false, ["pkg-1.0.0-1.noarch.rpm"]⟩ := by
  refine ⟨?_, ?_, ?_⟩
  · have h := (c4_output_path_resolution (fun q => decide (q = ⟨true, ["tmp", "out"]⟩))
      ⟨true, ["tmp", "out"]⟩ "pkg-1.0.0-1.noarch").2.1 (by decide)
    rw [h]; decide
  · have h := (c4_output_path_resolution (fun _ => false)
      ⟨true, ["tmp", "custom.bin"]⟩ "pkg-1.0.0-1.noarch").2.2.1 rfl
    rw [h]; decide
  · exact (c4_output_path_resolution (fun _ => false) ⟨true, []⟩ "pkg-1.0.0-1.noarch").1

/-! ### Claim C5 (changelog parsing) -/

/-- C5: changelog parsing splits on `:` into exactly three segments and
fails with `MalformedChangelogEntry` otherwise; the date segment must be
a valid `YYYY-MM-DD` date (failing with `InvalidDate` naming it
otherwise); a successful parse yields the epoch seconds of midnight UTC
of that date — always a multiple of 86400, no time-of-day is read — and
the concrete entry `"Jane:did a thing:2020-01-15"` yields author
`"Jane"`, description `"did a thing"` and timestamp 1579046400. -/
theorem c5_changelog_parsing :
    parseChangelogEntry "Jane:did a thing:2020-01-15" = .ok ("Jane", "did a thing", 1579046400)
  ∧ (∀ raw : String, (splitOnStr ':' raw).length ≠ 3 →
       parseChangelogEntry raw = .error (.malformedChangelogEntry raw))
  ∧ (∀ raw a c t, splitOnStr ':' raw = [a, c, t] → parseDateSeconds t = Option.none →
       parseChangelogEntry raw = .error (.invalidDate t))
  ∧ (∀ s secs, parseDateSeconds s = some secs → ∃ days : Int, secs = 86400 * days) := by
  refine ⟨by decide, fun raw h => ?_, fun raw a c t h1 h2 => ?_, fun s secs h => ?_⟩
  · simp only [splitOnStr] at h
    simp only [parseChangelogEntry]
    rcases hl : (splitOnChar ':' raw.data).map List.asString
      with _ | ⟨a, _ | ⟨b, _ | ⟨c, _ | ⟨d, tl⟩⟩⟩⟩
    · rfl
    · rfl
    · rfl
    · rw [hl] at h; simp at h
    · rfl
  · simp only [splitOnStr] at h1
    simp only [parseChangelogEntry]
    rw [h1]
    simp only [h2]
  · simp only [parseDateSeconds] at h
    split at h
    · split at h
      · split at h
        · exact ⟨_, (Option.some.inj h).symm⟩
        · exact Option.noConfusion h
      · exact Option.noConfusion h
    · exact Option.noConfusion h

/-- C5 witness: the error branches and the midnight-UTC property
evaluated at concrete inputs. -/
theorem c5_changelog_parsing_witness :
    parseChangelogEntry "a:b" = .error (.malformedChangelogEntry "a:b")
  ∧ parseChangelogEntry "a:b:nodate" = .error (.invalidDate "nodate")
  ∧ (∃ days : Int, (1579046400 : Int) = 86400 * days) :=
  ⟨c5_changelog_parsing.2.1 "a:b" (by decide),
   c5_changelog_parsing.2.2.1 "a:b:nodate" "a" "b" "nodate" (by decide) (by decide),
   c5_changelog_parsing.2.2.2 "2020-01-15" 1579046400 (by decide)⟩

/-! ### Claim C9 (timestamp truncation to u32) -/

/-- C9: the epoch-seconds value of each changelog entry is truncated to
an unsigned 32-bit value (the value modulo 2^32) before being handed to
the builder; in particular the pre-1970 date 1969-12-31, whose epoch
seconds are -86400, is accepted and silently wraps to the large unsigned
timestamp 2^32 - 86400 instead of being rejected. -/
theorem c9_timestamp_truncated_mod_2_32 (raw : String) (rest : List String)
    (acc : List (String × String × Nat)) (a c : String) (secs : Int) :
    (parseChangelogEntry raw = .ok (a, c, secs) →
       addChangelogArgs (raw :: rest) acc = addChangelogArgs rest (acc ++ [(a, c, castU32 secs)]))
  ∧ castU32 secs = (secs % (2 ^ 32 : Int)).toNat
  ∧ parseChangelogEntry "a:b:1969-12-31" = .ok ("a", "b", -86400)
  ∧ castU32 (-86400) = 4294967296 - 86400 := by
  refine ⟨fun h => ?_, ?_, by decide, by decide⟩
  · rw [addChangelogArgs, h]
  · norm_num [castU32]

/-- C9 witness: the changelog loop evaluated on the pre-1970 entry,
showing the wrapped timestamp handed to the builder. -/
theorem c9_timestamp_truncated_mod_2_32_witness :
    addChangelogArgs ["a:b:1969-12-31"] [] = .ok [("a", "b", 4294880896)] := by
  have h := (c9_timestamp_truncated_mod_2_32 "a:b:1969-12-31" [] [] "a" "b" (-86400)).1 (by decide)
  rw [h]; decide

/-! ### Claim C6 (directory tree walker) -/

/-- C6: in the directory walker, a symlink entry's link-target path
becomes the effective source (dereferenced exactly one level, the target
itself is never inspected), failing with `pathHasNoFilename` when the
target has no base name; a regular file yields an entry whose destination
is the destination root joined with the file's base name and which
carries no mode/config/doc attribute; and a subdirectory is recursed into
with the destination root extended by its base name. -/
theorem c6_directory_walker (ok : String → Bool) (nm f : String) (target : RPath)
    (children rest : FsTree) (srcRoot tgtRoot : RPath) (acc : List FileSpec) :
    (ok (rpathToString (srcRoot.push nm)) = true →
       add_dir ok (.regular nm rest) srcRoot tgtRoot acc
         = add_dir ok rest srcRoot tgtRoot
             (acc ++ [⟨rpathToString (srcRoot.push nm), rpathToString (tgtRoot.push nm),
                       Option.none, false, false⟩]))
  ∧ (target.fileName = Option.none →
       add_dir ok (.symlink nm target rest) srcRoot tgtRoot acc = .error .pathHasNoFilename)
  ∧ (target.fileName = some f → ok (rpathToString target) = true →
       add_dir ok (.symlink nm target rest) srcRoot tgtRoot acc
         = add_dir ok rest srcRoot tgtRoot
             (acc ++ [⟨rpathToString target, rpathToString (tgtRoot.push f),
                       Option.none, false, false⟩]))
  ∧ (add_dir ok (.subdir nm children rest) srcRoot tgtRoot acc
       = match add_dir ok children (srcRoot.push nm) (tgtRoot.push nm) acc with
         | .error e => .error e
         | .ok acc2 => add_dir ok rest srcRoot tgtRoot acc2) := by
  refine ⟨fun h => ?_, fun h => ?_, fun h1 h2 => ?_, ?_⟩
  · rw [add_dir, fileName_push]
    exact if_pos h
  · rw [add_dir, h]
  · rw [add_dir, h1]
    exact if_pos h2
  · rw [add_dir, fileName_push]

/-- C6 witness: the walker evaluated on a regular file, on a symlink
whose target is the root path `/`, and on a symlink with a proper
target. -/
theorem c6_directory_walker_witness :
    add_dir (fun _ => true) (.regular "a" .nil) ⟨false, ["s"]⟩ ⟨true, ["d"]⟩ []
      = .ok [⟨"s/a", "/d/a", Option.none, false, false⟩]
  ∧ add_dir (fun _ => true) (.symlink "lnk" ⟨true, []⟩ .nil) ⟨false, ["s"]⟩ ⟨true, ["d"]⟩ []
      = .error .pathHasNoFilename
  ∧ add_dir (fun _ => true) (.symlink "lnk" ⟨true, ["x", "y"]⟩ .nil) ⟨false, ["s"]⟩ ⟨true, ["d"]⟩ []
      = .ok [⟨"/x/y", "/d/y", Option.none, false, false⟩] := by
  refine ⟨?_, ?_, ?_⟩
  · have h := (c6_directory_walker (fun _ => true) "a" "a" ⟨true, []⟩ .nil .nil
      ⟨false, ["s"]⟩ ⟨true, ["d"]⟩ []).1 rfl
    rw [h]; decide
  · exact (c6_directory_walker (fun _ => true) "lnk" "x" ⟨true, []⟩ .nil .nil
      ⟨false, ["s"]⟩ ⟨true, ["d"]⟩ []).2.1 rfl
  · have h := (c6_directory_walker (fun _ => true) "lnk" "y" ⟨true, ["x", "y"]⟩ .nil .nil
      ⟨false, ["s"]⟩ ⟨true, ["d"]⟩ []).2.2.1 (by decide) rfl
    rw [h]; decide

/-! ### Claim C7 (greedy two-character operators) -/

/-- C7: for every input of the form `<name>>=<version>` or
`<name><=<version>` (with a well-formed name and a non-empty,
newline-free version, as the grammar requires), the parser produces the
greater-or-equal respectively less-or-equal relation on exactly that name
and version — never a strict relation whose version string begins with
`=`. -/
theorem c7_greedy_two_char_operators (name ver : String)
    (hne : name.data ≠ [])
    (hchars : ∀ c ∈ name.data, depNameChar c = true)
    (hver : versionOk ver.data = true) :
    parse_dependency (name ++ ">=" ++ ver) = .ok (.greaterEq name ver)
  ∧ parse_dependency (name ++ "<=" ++ ver) = .ok (.lessEq name ver) := by
  constructor
  · have hdata : (name ++ ">=" ++ ver).data = name.data ++ '>' :: '=' :: ver.data := by
      rw [String.data_append, String.data_append, List.append_assoc]; rfl
    have hm : matchOpVersion ('>' :: '=' :: ver.data) = some (['>', '='], ver.data) := by
      simp [matchOpVersion, hver]
    unfold parse_dependency
    rw [hdata, depCaptures_name_op name.data '>' ('=' :: ver.data) hne hchars
      (by decide) (by decide), hm]
    exact dispatchOp_ge name.data ver.data
  · have hdata : (name ++ "<=" ++ ver).data = name.data ++ '<' :: '=' :: ver.data := by
      rw [String.data_append, String.data_append, List.append_assoc]; rfl
    have hm : matchOpVersion ('<' :: '=' :: ver.data) = some (['<', '='], ver.data) := by
      simp [matchOpVersion, hver]
    unfold parse_dependency
    rw [hdata, depCaptures_name_op name.data '<' ('=' :: ver.data) hne hchars
      (by decide) (by decide), hm]
    exact dispatchOp_le name.data ver.data

/-- C7 witness: both two-character operators evaluated on a concrete
input. -/
theorem c7_greedy_two_char_operators_witness :
    parse_dependency "pkg>=2.0" = .ok (.greaterEq "pkg" "2.0")
  ∧ parse_dependency "pkg<=2.0" = .ok (.lessEq "pkg" "2.0") :=
  ⟨(c7_greedy_two_char_operators "pkg" "2.0" (by decide) (by decide) (by decide)).1,
   (c7_greedy_two_char_operators "pkg" "2.0" (by decide) (by decide) (by decide)).2⟩

/-! ### Claim C8 (the four file-argument classes) -/

/-- C8: all four file-argument classes go through the same entry grammar
(`parse_file_options`) — the parse outcome is independent of the class —
and differ only in the post-parse attribute assignment: source and
destination are the parsed pair for every class, executable entries get
mode 0o100755 (a regular file with permission bits 0755), config entries
the config flag, doc entries the doc flag, and plain entries no extra
attribute. -/
theorem c8_file_classes_share_grammar (ok : String → Bool) (raw : List String)
    (acc : List FileSpec) :
    (∀ cls e, parse_file_options raw = .error e → addFileArgs ok cls raw acc = .error e)
  ∧ (∀ cls pairs, parse_file_options raw = .ok pairs → (∀ sd ∈ pairs, ok sd.1 = true) →
       addFileArgs ok cls raw acc = .ok (acc ++ pairs.map (mkFileSpec cls)))
  ∧ (∀ cls sd, (mkFileSpec cls sd).source = sd.1 ∧ (mkFileSpec cls sd).dest = sd.2)
  ∧ (∀ sd, mkFileSpec .plain sd = ⟨sd.1, sd.2, Option.none, false, false⟩)
  ∧ (∀ sd, mkFileSpec .exec sd = ⟨sd.1, sd.2, some 0o100755, false, false⟩)
  ∧ (0o100755 : Nat) % 0o10000 = 0o755
  ∧ (∀ sd, mkFileSpec .config sd = ⟨sd.1, sd.2, Option.none, true, false⟩)
  ∧ (∀ sd, mkFileSpec .doc sd = ⟨sd.1, sd.2, Option.none, false, true⟩) := by
  refine ⟨fun cls e h => ?_, fun cls pairs h hok => ?_, fun cls sd => ?_,
    fun sd => rfl, fun sd => rfl, by decide, fun sd => rfl, fun sd => rfl⟩
  · rw [addFileArgs, h]
  · rw [addFileArgs, h]
    exact addParsedFiles_all_readable ok cls pairs acc hok
  · cases cls <;> exact ⟨rfl, rfl⟩

/-- C8 witness: one class evaluated on a parsed entry and one on a
malformed entry. -/
theorem c8_file_classes_share_grammar_witness :
    addFileArgs (fun _ => true) .exec ["a:b"] [] = .ok [⟨"a", "b", some 0o100755, false, false⟩]
  ∧ addFileArgs (fun _ => true) .plain ["nocolon"] []
      = .error (.malformedEntry "nocolon") := by
  constructor
  · have h := (c8_file_classes_share_grammar (fun _ => true) ["a:b"] []).2.1 .exec
      [("a", "b")] (by decide) (by decide)
    rw [h]; decide
  · exact (c8_file_classes_share_grammar (fun _ => true) ["nocolon"] []).1 .plain
      (.malformedEntry "nocolon") (by decide)

/-! ### Claim C10 (fallback operator branch is unreachable) -/

/-- C10: for every input string the dependency parser either fails with
the `InvalidDependencyExpression` error or succeeds with a dependency;
the fallback branch reporting an unknown operator match is never taken,
because whenever the operator group is present its capture is one of
`>=`, `>`, `=`, `<=`, `<`. -/
theorem c10_unknown_operator_unreachable (s : String) :
    (∃ t, parse_dependency s = .error (.invalidDependencyExpression t))
  ∨ (∃ d, parse_dependency s = .ok d) := by
  unfold parse_dependency
  rcases hc : depCaptures s.data with _ | ⟨nm, _ | ⟨g2, op, ver⟩⟩
  · exact .inl ⟨s, rfl⟩
  · exact .inr ⟨_, rfl⟩
  · rcases depCaptures_op_shape s.data nm g2 op ver hc with rfl | rfl | rfl | rfl | rfl
    · exact .inr ⟨_, dispatchOp_ge nm ver⟩
    · exact .inr ⟨_, dispatchOp_gt nm ver⟩
    · exact .inr ⟨_, dispatchOp_eqop nm ver⟩
    · exact .inr ⟨_, dispatchOp_le nm ver⟩
    · exact .inr ⟨_, dispatchOp_lt nm ver⟩

/-! ### Claim C1 (output file discipline) -/

/-- C1 (amended): a run that fails anywhere up to and including the
creation of the output file creates zero files; on success exactly one
file — the resolved output path — is created or overwritten; but when the
output file has been created and the final write into it fails, the run
fails with that single file already in existence (possibly incomplete),
so a write failure is the one failing step that leaves an output file
behind. -/
theorem c1_output_file_only_after_successful_build (args : Cli) (sys : Sys) :
    (∀ p, (mainModel args sys).1 = .ok p → (mainModel args sys).2 = [p])
  ∧ (∀ e, (mainModel args sys).1 = .error e → e ≠ .writeFailed → (mainModel args sys).2 = [])
  ∧ (∀ p, buildPhase args sys = .ok p → sys.createOk p = true → sys.writeOk p = false →
       mainModel args sys = (.error .writeFailed, [p]))
  ∧ (∀ p, buildPhase args sys = .ok p → sys.createOk p = false →
       mainModel args sys = (.error (.createFailed p), []))
  ∧ (∀ e, buildPhase args sys = .error e → mainModel args sys = (.error e, [])) := by
  unfold mainModel
  cases hb : buildPhase args sys with
  | error e =>
    refine ⟨fun p hp => Except.noConfusion hp, fun e' he' hne => rfl,
      fun p hp => Except.noConfusion hp,
      fun p hp => Except.noConfusion hp,
      fun e' he' => ?_⟩
    obtain rfl := Except.error.inj he'
    rfl
  | ok path =>
    dsimp only
    by_cases hc : sys.createOk path = true
    · by_cases hw : sys.writeOk path = true
      · rw [if_pos hc, if_pos hw]
        refine ⟨fun p hp => ?_, fun e' he' hne => Except.noConfusion he',
          fun p hp h1 h2 => ?_, fun p hp h1 => ?_,
          fun e' he' => Except.noConfusion he'⟩
        · obtain rfl := Except.ok.inj hp
          rfl
        · obtain rfl := Except.ok.inj hp
          exact absurd hw (by simp [h2])
        · obtain rfl := Except.ok.inj hp
          exact absurd hc (by simp [h1])
      · rw [if_pos hc, if_neg hw]
        refine ⟨fun p hp => Except.noConfusion hp, fun e' he' hne => ?_,
          fun p hp h1 h2 => ?_, fun p hp h1 => ?_,
          fun e' he' => Except.noConfusion he'⟩
        · exact absurd (Except.error.inj he').symm hne
        · obtain rfl := Except.ok.inj hp
          rfl
        · obtain rfl := Except.ok.inj hp
          exact absurd h1 (by simp [hc])
    · rw [if_neg hc]
      refine ⟨fun p hp => Except.noConfusion hp, fun e' he' hne => rfl,
        fun p hp h1 h2 => ?_, fun p hp h1 => ?_,
        fun e' he' => Except.noConfusion he'⟩
      · obtain rfl := Except.ok.inj hp
        exact absurd h1 hc
      · obtain rfl := Except.ok.inj hp
        rfl

/-- C1 witness: the discipline evaluated on three concrete runs — a fully
successful one, one failing early on an invalid dependency string (no
file created), and one failing at the final write (the created file
remains). -/
theorem c1_output_file_only_after_successful_build_witness :
    (mainModel cliMinimal sysAllOk).2 = [⟨false, ["pkg-1.0.0-1.noarch.rpm"]⟩]
  ∧ mainModel cliBadDep sysAllOk
      = (.error (.invalidDependencyExpression "bad name with spaces no op"), [])
  ∧ mainModel cliMinimal sysWriteFails
      = (.error .writeFailed, [⟨false, ["pkg-1.0.0-1.noarch.rpm"]⟩]) :=
  ⟨(c1_output_file_only_after_successful_build cliMinimal sysAllOk).1
      ⟨false, ["pkg-1.0.0-1.noarch.rpm"]⟩ (by decide),
   (c1_output_file_only_after_successful_build cliBadDep sysAllOk).2.2.2.2
      (.invalidDependencyExpression "bad name with spaces no op") (by decide),
   (c1_output_file_only_after_successful_build cliMinimal sysWriteFails).2.2.1
      ⟨false, ["pkg-1.0.0-1.noarch.rpm"]⟩ (by decide) (by decide) (by decide)⟩

/-- C1 counterexample: the claim says a failure at the write step also
leaves zero output files, but in the code `fs::File::create` runs before
`pkg.write`, so a run whose only failure is the final write fails with
the output file already created. -/
theorem c1_write_failure_leaves_created_file :
    mainModel cliMinimal sysWriteFails
      = (.error .writeFailed, [⟨false, ["pkg-1.0.0-1.noarch.rpm"]⟩])
  ∧ 1 ≤ (mainModel cliMinimal sysWriteFails).2.length := by
  decide

end RpmBuilder
